import Mathlib

/-!
Verification of the VideoProcessingApp moderation pipeline.

Shallow embedding of the backend core:
* `parse_moderation_labels` from `services/aws_rekognition_analyzer.py`
* `process_success`, `process_failure`, `poll_pending_videos` from
  `services/rekognition_poller.py`
* `upload_video` (status decision and document creation) and
  `update_video` from `routes/videos.py`

Machine floats (AWS confidences) are embedded as rationals: the code only
compares and copies them, never does float arithmetic, so ordering and
equality are exactly preserved.  Wall-clock reads (`datetime.utcnow()`)
are passed as an explicit `now : Nat` parameter.
-/

namespace VideoApp

/-- One Rekognition moderation label occurrence, with the four fields the
code extracts: `ModerationLabel.Name`, `.Confidence`, the segment
`Timestamp`, and `ModerationLabel.ParentName`.  The same shape is used for
the label-detail snapshots the classifier stores. -/
structure ModerationLabel where
  name : String
  confidence : ℚ
  timestamp : ℕ
  parentName : String
deriving Repr, DecidableEq

/-- The `flagged_categories` set from `parse_moderation_labels`. -/
def flaggedCategories : List String :=
  ["Explicit Nudity", "Nudity", "Graphic Male Nudity", "Graphic Female Nudity",
   "Sexual Activity", "Illustrated Explicit Nudity", "Adult Toys",
   "Violence", "Graphic Violence", "Physical Violence", "Weapon Violence",
   "Weapons", "Self Injury", "Emaciated Bodies", "Corpses",
   "Hanging", "Air Crash", "Explosions And Blasts",
   "Visually Disturbing", "Gambling", "Hate Symbols",
   "Rude Gestures", "Middle Finger"]

/-- The `suggestive_categories` set from `parse_moderation_labels`
(declared by the code but never consulted for flagging). -/
def suggestiveCategories : List String :=
  ["Suggestive", "Female Swimwear Or Underwear", "Male Swimwear Or Underwear",
   "Revealing Clothes", "Partial Nudity"]

/-- Substring test on character lists, the semantics of Python's
`needle in haystack` for strings. -/
def containsSub (hay needle : List Char) : Bool :=
  match hay with
  | [] => needle.isEmpty
  | _ :: t => needle.isPrefixOf hay || containsSub t needle

/-- Python's `needle in haystack` on strings. -/
def strContains (hay needle : String) : Bool :=
  containsSub hay.toList needle.toList

/-- ASCII lowering of one character, the semantics of `str.lower()` on the
ASCII label names this code handles (and of Lean's `Char.toLower`). -/
def lowerChar (c : Char) : Char :=
  if 65 ≤ c.toNat ∧ c.toNat ≤ 90 then Char.ofNat (c.toNat + 32) else c

/-- Python's `f.lower()`. -/
def strLower (s : String) : String :=
  ⟨s.toList.map lowerChar⟩

/-- The flagging test of the classifier loop:
`label_name in flagged_categories or parent_name in flagged_categories`. -/
def isFlaggable (l : ModerationLabel) : Bool :=
  flaggedCategories.contains l.name || flaggedCategories.contains l.parentName

/-- Mutable state of the `for label_data in moderation_labels` loop. -/
structure LoopState where
  flags : List String
  max_confidence : ℚ
  label_details : List ModerationLabel
deriving Repr, DecidableEq

/-- One iteration of the classifier loop: append the detail record, bump
the running maximum, and append the name to `flags` when the label or its
parent is flaggable and the name is not already present. -/
def loopStep (st : LoopState) (l : ModerationLabel) : LoopState :=
  { flags :=
      if isFlaggable l then
        (if st.flags.contains l.name then st.flags else st.flags ++ [l.name])
      else st.flags
    max_confidence :=
      if l.confidence > st.max_confidence then l.confidence else st.max_confidence
    label_details := st.label_details ++ [l] }

/-- The classifier loop over the whole label list. -/
def parseLoop (st : LoopState) : List ModerationLabel → LoopState
  | [] => st
  | l :: ls => parseLoop (loopStep st l) ls

/-- Result dictionary of `parse_moderation_labels`. -/
structure Verdict where
  is_flagged : Bool
  is_safe : Bool
  flags : List String
  violence_flags : List String
  nsfw_flags : List String
  disturbing_flags : List String
  other_flags : List String
  confidence : ℚ
  total_labels : ℕ
  label_details : List ModerationLabel
deriving Repr, DecidableEq

/-- Bucket test `'violence' in f.lower() or 'weapon' in f.lower()`. -/
def matchesViolence (f : String) : Bool :=
  strContains (strLower f) "violence" || strContains (strLower f) "weapon"

/-- Bucket test `'nudity' in f.lower() or 'sexual' in f.lower()`. -/
def matchesNsfw (f : String) : Bool :=
  strContains (strLower f) "nudity" || strContains (strLower f) "sexual"

/-- Bucket test `'disturbing' in f.lower() or 'corpse' in f.lower() or
'injury' in f.lower()`. -/
def matchesDisturbing (f : String) : Bool :=
  strContains (strLower f) "disturbing" || strContains (strLower f) "corpse" ||
    strContains (strLower f) "injury"

/-- `AWSRekognitionAnalyzer.parse_moderation_labels`, embedded from
`services/aws_rekognition_analyzer.py` lines 220-295. -/
def parse_moderation_labels (moderation_labels : List ModerationLabel) : Verdict :=
  let st := parseLoop ⟨[], 0, []⟩ moderation_labels
  let flags := st.flags
  let is_flagged : Bool := decide (flags.length > 0)
  let violence_flags := flags.filter matchesViolence
  let nsfw_flags := flags.filter matchesNsfw
  let disturbing_flags := flags.filter matchesDisturbing
  let other_flags :=
    flags.filter (fun f => !((violence_flags ++ nsfw_flags ++ disturbing_flags).contains f))
  { is_flagged := is_flagged
    is_safe := !is_flagged
    flags := flags
    violence_flags := violence_flags
    nsfw_flags := nsfw_flags
    disturbing_flags := disturbing_flags
    other_flags := other_flags
    confidence := st.max_confidence
    total_labels := moderation_labels.length
    label_details := st.label_details.take 10 }

/-! ## Persistence model

The document store offers atomic single-document updates keyed by `_id`.
Videos and users are embedded as typed records carrying exactly the fields
the core reads or writes; `update_one` becomes `updateFirst`, which
rewrites the first document matching the id, and `find_one` becomes
`List.find?`. -/

/-- The analysis record stored under `metadata.analysis`. -/
inductive AnalysisRecord where
  /-- Written at upload time on submission success:
  `{rekognition_job_id, s3_key, s3_uri, status: "IN_PROGRESS", started_at}`. -/
  | inProgressMeta (jobId s3Key s3Uri : String) (started_at : ℕ)
  /-- Written by `process_success`: classifier output plus `completed_at`
  and `status: "COMPLETED"`. -/
  | completed (flags violence_flags nsfw_flags disturbing_flags : List String)
      (confidence : ℚ) (total_labels : ℕ) (label_details : List ModerationLabel)
      (completed_at : ℕ)
  /-- Written by `process_failure`:
  `{error, failed_at, status: "FAILED"}`. -/
  | failedRec (error : String) (failed_at : ℕ)
  /-- Written at upload time when analysis could not start: `{error}`. -/
  | uploadError (error : String)
deriving Repr, DecidableEq

/-- A video document, with the fields the core touches. -/
structure VideoDoc where
  id : String
  userId : String
  title : String
  filename : String
  s3Key : Option String
  fileSize : ℕ
  status : String
  processingProgress : ℕ
  sensitivityStatus : Option String
  rekognitionJobId : Option String
  analysis : Option AnalysisRecord
deriving Repr, DecidableEq

/-- A user document, with the fields the core reads. -/
structure UserDoc where
  userId : String
  role : String
  admin_key : Option String
  registered_by : Option String
  connected_users : Option (List String)
deriving Repr, DecidableEq

/-- The persistent store. -/
structure DB where
  videos : List VideoDoc
  users : List UserDoc
deriving Repr, DecidableEq

/-- `update_one({_id: id}, {$set: ...})`: rewrite the first document whose
id matches. -/
def updateFirst (f : VideoDoc → VideoDoc) (id : String) : List VideoDoc → List VideoDoc
  | [] => []
  | w :: ws => if w.id = id then f w :: ws else w :: updateFirst f id ws

/-- `find_one({_id: id})` on the videos collection. -/
def findVideo (vs : List VideoDoc) (id : String) : Option VideoDoc :=
  vs.find? (fun w => w.id = id)

/-- A Socket.IO event, with the payload keys the poller emits (absent keys
are `none`). -/
structure Event where
  name : String
  room : String
  videoId : String
  userId : String
  status : Option String
  sensitivityStatus : Option String
  flags : Option (List String)
  message : String
  error : Option String
deriving Repr, DecidableEq

/-- Recipient resolution of `process_success`: the owner's user record is
looked up and, when it exists and `connected_users` is non-empty, those
ids are appended to the target rooms (appending an empty list is the
Python truthiness no-op). -/
def connectedOf (db : DB) (uid : String) : List String :=
  match db.users.find? (fun u => u.userId = uid) with
  | some u => (u.connected_users).getD []
  | none => []

/-- The `$set` document of the success-path update in `process_success`
(lines 135-155 of `services/rekognition_poller.py`). -/
def applySuccessSet (analysis : Verdict) (now : ℕ) (w : VideoDoc) : VideoDoc :=
  { w with
    status := if analysis.is_flagged then "flagged" else "completed"
    processingProgress := 100
    sensitivityStatus := some (if analysis.is_flagged then "flagged" else "safe")
    analysis := some (.completed analysis.flags analysis.violence_flags
      analysis.nsfw_flags analysis.disturbing_flags analysis.confidence
      analysis.total_labels analysis.label_details now) }

/-- The `$set` document of the failure-path update in `process_failure`
(lines 209-222); `sensitivityStatus` is not touched. -/
def applyFailureSet (error_message : String) (now : ℕ) (w : VideoDoc) : VideoDoc :=
  { w with
    status := "failed"
    processingProgress := 0
    analysis := some (.failedRec error_message now) }

/-- The flagged-path event payload of `process_success`. -/
def successEvent (video : VideoDoc) (analysis : Verdict) (room : String) : Event :=
  if analysis.is_flagged then
    { name := "processing_completed", room := room, videoId := video.id
      userId := video.userId, status := some "flagged"
      sensitivityStatus := some "flagged"
      flags := some analysis.flags
      message := "Video flagged for: " ++ String.intercalate ", " analysis.flags
      error := none }
  else
    { name := "processing_completed", room := room, videoId := video.id
      userId := video.userId, status := some "completed"
      sensitivityStatus := some "safe"
      flags := none
      message := "Video is safe and ready for playback"
      error := none }

/-- `RekognitionPoller.process_success` (lines 109-189): classify, apply
the terminal update, resolve owner-plus-connected rooms, and emit one
`processing_completed` event per room.  Returns the new store and the
emitted events. -/
def process_success (db : DB) (video : VideoDoc) (labels : List ModerationLabel)
    (now : ℕ) : DB × List Event :=
  let analysis := parse_moderation_labels labels
  let db' : DB := { db with videos := updateFirst (applySuccessSet analysis now) video.id db.videos }
  let target_rooms := video.userId :: connectedOf db video.userId
  (db', target_rooms.map (successEvent video analysis))

/-- `RekognitionPoller.process_failure` (lines 195-239): apply the failed
update and emit a single `processing_failed` event to the owner's room. -/
def process_failure (db : DB) (video : VideoDoc) (error_message : String)
    (now : ℕ) : DB × List Event :=
  let db' : DB := { db with videos := updateFirst (applyFailureSet error_message now) video.id db.videos }
  (db',
    [{ name := "processing_failed", room := video.userId, videoId := video.id
       userId := video.userId, status := none, sensitivityStatus := none
       flags := none
       message := "Video analysis failed. Please try uploading again."
       error := some error_message }])

/-- Outcome of one `get_content_moderation_results` call, including the
call raising (a transient poll error) and an unknown status string. -/
inductive PollOutcome where
  | inProgress
  | succeeded (labels : List ModerationLabel)
  | failed
  | raiseErr (msg : String)
  | unknown (s : String)
deriving Repr, DecidableEq

/-- The discovery query of `poll_pending_videos` (lines 66-69): status
`processing_pending` and `metadata.rekognitionJobId` exists and is not
null. -/
def isPendingDoc (w : VideoDoc) : Bool :=
  w.status = "processing_pending" && w.rekognitionJobId.isSome

/-- The body of the `for video in pending_videos` loop (lines 71-107): a
falsy job id is skipped; `IN_PROGRESS`, an unknown status, and a raised
poll error all leave the record untouched (the error is swallowed for
retry next cycle); `SUCCEEDED`/`FAILED` hand off to the result
processor. -/
def pollStep (poll : String → PollOutcome) (now : ℕ) (acc : DB × List Event)
    (video : VideoDoc) : DB × List Event :=
  match video.rekognitionJobId with
  | none => acc
  | some jobId =>
    if jobId = "" then acc
    else
      match poll jobId with
      | .inProgress => acc
      | .succeeded labels =>
          let r := process_success acc.1 video labels now
          (r.1, acc.2 ++ r.2)
      | .failed =>
          let r := process_failure acc.1 video "Rekognition job failed" now
          (r.1, acc.2 ++ r.2)
      | .raiseErr _ => acc
      | .unknown _ => acc

/-- `RekognitionPoller.poll_pending_videos` (lines 59-107): query the
pending records once, then process each in discovery order. -/
def poll_pending_videos (db : DB) (poll : String → PollOutcome) (now : ℕ) :
    DB × List Event :=
  (db.videos.filter isPendingDoc).foldl (pollStep poll now) (db, [])

/-- Where, if anywhere, the success path raises: while classifying the
labels, or while applying the success-path database update (the atomic
update is then not applied).  The enclosing `try` of `process_success`
routes either raise to `process_failure(video, str(e))`. -/
inductive SuccessOutcome where
  | ok
  | raiseDuringClassify (msg : String)
  | raiseDuringUpdate (msg : String)
deriving Repr, DecidableEq

/-- `process_success` with its `try/except` fallback (lines 121-193): an
exception anywhere in the success path is caught and handed to
`process_failure`. -/
def process_success_exc (db : DB) (video : VideoDoc) (labels : List ModerationLabel)
    (now : ℕ) : SuccessOutcome → DB × List Event
  | .ok => process_success db video labels now
  | .raiseDuringClassify msg => process_failure db video msg now
  | .raiseDuringUpdate msg => process_failure db video msg now

/-! ## Upload and update routes -/

/-- Outcome of `analyze_video_async` at upload time: either both the S3
store and the job submission succeed, or one of them raises. -/
inductive UploadOutcome where
  | ok (jobId s3Uri : String)
  | storeError (msg : String)
  | submitError (msg : String)
deriving Repr, DecidableEq

/-- `upload_video` from `routes/videos.py` lines 132-209 (after the file
has been saved): decide the initial status from the submission outcome,
build the video document, and insert it.  `newId` stands for the ObjectId
the store generates.  Returns the new store and the inserted document. -/
def upload_video (db : DB) (ownerId title displayFilename s3Key newId : String)
    (fileSize now : ℕ) (analyzerConfigured : Bool) (outcome : UploadOutcome) :
    DB × VideoDoc :=
  let dec :
      String × Option AnalysisRecord × Option String × Option String :=
    if analyzerConfigured then
      match outcome with
      | .ok jobId s3Uri =>
          ("processing_pending",
           some (.inProgressMeta jobId s3Key s3Uri now), some jobId, some s3Key)
      | .storeError msg => ("failed", some (.uploadError msg), none, some s3Key)
      | .submitError msg => ("failed", some (.uploadError msg), none, some s3Key)
    else
      ("uploaded", some (.uploadError "AWS Rekognition not configured"), none, none)
  let doc : VideoDoc :=
    { id := newId, userId := ownerId, title := title, filename := displayFilename
      s3Key := dec.2.2.2, fileSize := fileSize, status := dec.1
      processingProgress := 0, sensitivityStatus := none
      rekognitionJobId := dec.2.2.1, analysis := dec.2.1 }
  ({ db with videos := db.videos ++ [doc] }, doc)

/-- Python `os.path.splitext(filename)[1] != ""`: the basename has a dot
that is preceded by some non-dot character. -/
def hasFileExtension (p : String) : Bool :=
  ((((p.splitOn "/").getLastD "").toList.dropWhile (fun c => c = '.')).contains '.')

/-- The ownership check of `update_video` (lines 560-575): the owner, or
an editor whose registering admin owns the video. -/
def allowed_to_edit (db : DB) (video : VideoDoc) (u : UserDoc) : Bool :=
  if video.userId = u.userId then true
  else if u.role = "editor" then
    match u.registered_by with
    | none => false
    | some key =>
      match db.users.find? (fun a => a.role = "admin" && a.admin_key = some key) with
      | some admin => video.userId = admin.userId
      | none => false
  else false

/-- `update_video` from `routes/videos.py` lines 535-623: look up the
video, check permission, validate the filename extension, and `$set` only
the provided `title`/`filename` fields.  Error responses leave the store
unchanged. -/
def update_video (db : DB) (current_user : UserDoc) (video_id : String)
    (title filename : Option String) : Except String DB :=
  match findVideo db.videos video_id with
  | none => .error "Video not found"
  | some video =>
    if !(allowed_to_edit db video current_user) then .error "Access denied"
    else
      match filename with
      | some f =>
        if !(hasFileExtension f) then .error "Filename must include a file extension"
        else
          let setFields := fun (w : VideoDoc) =>
            { w with
              title := (title).getD w.title
              filename := f }
          .ok { db with videos := updateFirst setFields video_id db.videos }
      | none =>
        match title with
        | none => .error "No fields to update"
        | some t =>
          .ok { db with videos := updateFirst (fun w => { w with title := t }) video_id db.videos }

/-- One deduplicating append: add a name unless already present. -/
def dedupStep (acc : List String) (x : String) : List String :=
  if acc.contains x then acc else acc ++ [x]

/-- Deduplication by name with first-seen order preserved. -/
def dedupFirstSeen (xs : List String) : List String :=
  xs.foldl dedupStep []

/-- Running maximum step of the classifier loop. -/
def maxStep (m c : ℚ) : ℚ :=
  if c > m then c else m

/-! ## Concrete documents for witnesses and counterexamples -/

/-- A pending video owned by account `u`. -/
def exVideo : VideoDoc :=
  { id := "vid1", userId := "u", title := "My video", filename := "clip.mp4"
    s3Key := some "videos/u/clip.mp4", fileSize := 5, status := "processing_pending"
    processingProgress := 0, sensitivityStatus := none
    rekognitionJobId := some "job1", analysis := none }

/-- Owner account `u` with two connected accounts. -/
def exUser : UserDoc :=
  { userId := "u", role := "admin", admin_key := some "k1"
    registered_by := none, connected_users := some ["v1", "v2"] }

/-- A store holding the pending video and its owner. -/
def exDB : DB := { videos := [exVideo], users := [exUser] }

/-- Replace every wall-clock timestamp in an analysis record by 0, to
compare records up to their timestamps. -/
def stripTime : AnalysisRecord → AnalysisRecord
  | .inProgressMeta j k u _ => .inProgressMeta j k u 0
  | .completed fl vf nf df c t ld _ => .completed fl vf nf df c t ld 0
  | .failedRec e _ => .failedRec e 0
  | .uploadError e => .uploadError e

/-- A transient poll error is operationally a skip: replace the raising
outcome by `IN_PROGRESS`. -/
def swallowRaise : PollOutcome → PollOutcome
  | .raiseErr _ => .inProgress
  | o => o

/-- First pending video of the three-job scenario. -/
def exV1 : VideoDoc := { exVideo with id := "id1", rekognitionJobId := some "j1" }

/-- Second pending video of the three-job scenario. -/
def exV2 : VideoDoc := { exVideo with id := "id2", rekognitionJobId := some "j2" }

/-- Third pending video of the three-job scenario. -/
def exV3 : VideoDoc := { exVideo with id := "id3", rekognitionJobId := some "j3" }

/-- Store with three outstanding jobs. -/
def exPollDB : DB := { videos := [exV1, exV2, exV3], users := [exUser] }

/-- Poll outcomes of the scenario: first job succeeds cleanly, second
raises a transient error, third succeeds with a flaggable label. -/
def pollScript : String → PollOutcome := fun j =>
  if j = "j1" then .succeeded []
  else if j = "j2" then .raiseErr "transient network error"
  else if j = "j3" then .succeeded [⟨"Weapons", 91, 0, ""⟩]
  else .inProgress

/-- Erase the two fields the record-update endpoint may set. -/
def stripTitleFilename (w : VideoDoc) : VideoDoc :=
  { w with title := "", filename := "" }

/-- A terminal (completed) video record. -/
def exTerminalVideo : VideoDoc :=
  { exVideo with
    id := "vidT"
    status := "completed"
    processingProgress := 100
    sensitivityStatus := some "safe"
    rekognitionJobId := none }

/-- Store holding a terminal record next to an outstanding one. -/
def exDB2 : DB := { videos := [exTerminalVideo, exV1], users := [exUser] }

example : (parse_moderation_labels [⟨"Weapons", 91, 0, ""⟩]).flags = ["Weapons"] := by decide

example : (parse_moderation_labels [⟨"Weapons", 91, 0, ""⟩]).violence_flags = ["Weapons"] := by
  decide

example : (parse_moderation_labels []).is_flagged = false := by decide

example :
    (parse_moderation_labels [⟨"Sexual Violence", 90, 0, "Violence"⟩]).nsfw_flags
      = ["Sexual Violence"] := by decide

/-! ## Classifier lemmas -/

theorem parseLoop_flags (ls : List ModerationLabel) (st : LoopState) :
    (parseLoop st ls).flags
      = ((ls.filter isFlaggable).map (fun l => l.name)).foldl dedupStep st.flags := by
  induction ls generalizing st with
  | nil => rfl
  | cons l ls ih =>
    cases h : isFlaggable l with
    | true =>
      rw [show parseLoop st (l :: ls) = parseLoop (loopStep st l) ls from rfl, ih]
      simp [List.filter_cons, h, loopStep, dedupStep]
    | false =>
      rw [show parseLoop st (l :: ls) = parseLoop (loopStep st l) ls from rfl, ih]
      simp [List.filter_cons, h, loopStep]

theorem parseLoop_details (ls : List ModerationLabel) (st : LoopState) :
    (parseLoop st ls).label_details = st.label_details ++ ls := by
  induction ls generalizing st with
  | nil => simp [parseLoop]
  | cons l ls ih =>
    rw [show parseLoop st (l :: ls) = parseLoop (loopStep st l) ls from rfl, ih]
    simp [loopStep]

theorem parseLoop_conf (ls : List ModerationLabel) (st : LoopState) :
    (parseLoop st ls).max_confidence
      = (ls.map (fun l => l.confidence)).foldl maxStep st.max_confidence := by
  induction ls generalizing st with
  | nil => rfl
  | cons l ls ih =>
    rw [show parseLoop st (l :: ls) = parseLoop (loopStep st l) ls from rfl, ih]
    rfl

theorem flags_eq (ls : List ModerationLabel) :
    (parse_moderation_labels ls).flags
      = dedupFirstSeen ((ls.filter isFlaggable).map (fun l => l.name)) :=
  parseLoop_flags ls ⟨[], 0, []⟩

theorem conf_eq (ls : List ModerationLabel) :
    (parse_moderation_labels ls).confidence
      = (ls.map (fun l => l.confidence)).foldl maxStep 0 :=
  parseLoop_conf ls ⟨[], 0, []⟩

theorem foldl_maxStep_mem (l : List ℚ) (m : ℚ) :
    l.foldl maxStep m ∈ m :: l := by
  induction l generalizing m with
  | nil => simp
  | cons c l ih =>
    have h := ih (maxStep m c)
    rcases List.mem_cons.mp h with h | h
    · rw [List.foldl_cons, h]
      unfold maxStep
      split
      · exact List.mem_cons_of_mem _ (List.mem_cons_self _ _)
      · exact List.mem_cons_self _ _
    · exact List.mem_cons_of_mem _ (List.mem_cons_of_mem _ (by rw [List.foldl_cons]; exact h))

theorem le_foldl_maxStep (l : List ℚ) (m : ℚ) : m ≤ l.foldl maxStep m := by
  induction l generalizing m with
  | nil => simp
  | cons c l ih =>
    rw [List.foldl_cons]
    refine le_trans ?_ (ih (maxStep m c))
    unfold maxStep
    split
    · exact le_of_lt (by assumption)
    · exact le_rfl

theorem mem_le_foldl_maxStep (l : List ℚ) (m : ℚ) :
    ∀ x ∈ l, x ≤ l.foldl maxStep m := by
  induction l generalizing m with
  | nil => intro x hx; cases hx
  | cons c l ih =>
    intro x hx
    rcases List.mem_cons.mp hx with h | h
    · subst h
      rw [List.foldl_cons]
      refine le_trans ?_ (le_foldl_maxStep l (maxStep m x))
      unfold maxStep
      split
      · exact le_rfl
      · exact le_of_not_lt (by assumption)
    · rw [List.foldl_cons]
      exact ih (maxStep m c) x h

/-- The filtered name list driving `flags` is a function of the
name/parent projection alone. -/
theorem filter_map_names (ls : List ModerationLabel) :
    (ls.filter isFlaggable).map (fun l => l.name)
      = ((ls.map (fun l => (l.name, l.parentName))).filter
          (fun p => flaggedCategories.contains p.1 || flaggedCategories.contains p.2)).map
            (fun p => p.1) := by
  induction ls with
  | nil => rfl
  | cons l ls ih =>
    cases h : isFlaggable l with
    | true =>
      simp only [List.map_cons, List.filter_cons]
      rw [show (flaggedCategories.contains l.name || flaggedCategories.contains l.parentName)
            = isFlaggable l from rfl, h]
      simp [ih, h]
    | false =>
      simp only [List.map_cons, List.filter_cons]
      rw [show (flaggedCategories.contains l.name || flaggedCategories.contains l.parentName)
            = isFlaggable l from rfl, h]
      simp [ih, h]

/-! ## Claims about the label classifier -/

/-- C1: for every list of moderation labels, `flags` is exactly the
first-seen-order, name-deduplicated list of names of labels whose own name
or parent-category name is in the flaggable set; `is_flagged` holds iff
`flags` is non-empty; and a label whose name and parent are both outside
the flaggable set (in particular a suggestive-only label) never
contributes a flag. -/
theorem flags_characterization (ls : List ModerationLabel) :
    ((parse_moderation_labels ls).flags
        = dedupFirstSeen ((ls.filter isFlaggable).map (fun l => l.name)))
    ∧ ((parse_moderation_labels ls).is_flagged = true
        ↔ (parse_moderation_labels ls).flags ≠ [])
    ∧ (∀ pre (l : ModerationLabel) post, isFlaggable l = false →
        (parse_moderation_labels (pre ++ l :: post)).flags
          = (parse_moderation_labels (pre ++ post)).flags) := by
  refine ⟨flags_eq ls, ?_, ?_⟩
  · have h : (parse_moderation_labels ls).is_flagged
        = decide ((parse_moderation_labels ls).flags.length > 0) := rfl
    rw [h]
    simp [List.length_pos]
  · intro pre l post h
    rw [flags_eq, flags_eq]
    simp [List.filter_append, List.filter_cons, h]

/-- Witness for C1: a suggestive-only label (name and parent outside the
flaggable set) contributes no flag. -/
theorem flags_characterization_witness :
    (parse_moderation_labels
        ([⟨"Weapons", 91, 0, ""⟩] ++ ModerationLabel.mk "Suggestive" 80 5 "" :: [])).flags
      = (parse_moderation_labels ([⟨"Weapons", 91, 0, ""⟩] ++ [])).flags :=
  (flags_characterization []).2.2 [⟨"Weapons", 91, 0, ""⟩] ⟨"Suggestive", 80, 5, ""⟩ []
    (by decide)

/-- Counterexample for C4 as stated: a label whose parent is flaggable and
whose name matches both the violence and the nsfw keyword sets lands in
two buckets at once, so the buckets do not partition `flags`. -/
theorem bucket_overlap_cex :
    "Sexual Violence"
        ∈ (parse_moderation_labels [⟨"Sexual Violence", 90, 0, "Violence"⟩]).flags
    ∧ "Sexual Violence"
        ∈ (parse_moderation_labels [⟨"Sexual Violence", 90, 0, "Violence"⟩]).violence_flags
    ∧ "Sexual Violence"
        ∈ (parse_moderation_labels [⟨"Sexual Violence", 90, 0, "Violence"⟩]).nsfw_flags := by
  decide

/-- C4 (amended): every entry of `flags` appears in at least one of the
four buckets; membership in violence/nsfw/disturbing is decided by the
case-insensitive keyword match, and a flag is in `other_flags` iff it
matches none of the three keyword sets.  A flag whose name matches the
keywords of two different sets appears in more than one bucket. -/
theorem bucket_membership (ls : List ModerationLabel) (f : String)
    (hf : f ∈ (parse_moderation_labels ls).flags) :
    (f ∈ (parse_moderation_labels ls).violence_flags ↔ matchesViolence f = true)
    ∧ (f ∈ (parse_moderation_labels ls).nsfw_flags ↔ matchesNsfw f = true)
    ∧ (f ∈ (parse_moderation_labels ls).disturbing_flags ↔ matchesDisturbing f = true)
    ∧ (f ∈ (parse_moderation_labels ls).other_flags
        ↔ ¬(matchesViolence f = true ∨ matchesNsfw f = true ∨ matchesDisturbing f = true))
    ∧ (f ∈ (parse_moderation_labels ls).violence_flags
        ∨ f ∈ (parse_moderation_labels ls).nsfw_flags
        ∨ f ∈ (parse_moderation_labels ls).disturbing_flags
        ∨ f ∈ (parse_moderation_labels ls).other_flags) := by
  have hmem : ∀ p : String → Bool,
      f ∈ (parse_moderation_labels ls).flags.filter p ↔ p f = true := by
    intro p
    rw [List.mem_filter]
    exact ⟨fun h => h.2, fun h => ⟨hf, h⟩⟩
  have hv : f ∈ (parse_moderation_labels ls).violence_flags ↔ matchesViolence f = true :=
    hmem matchesViolence
  have hn : f ∈ (parse_moderation_labels ls).nsfw_flags ↔ matchesNsfw f = true :=
    hmem matchesNsfw
  have hd : f ∈ (parse_moderation_labels ls).disturbing_flags ↔ matchesDisturbing f = true :=
    hmem matchesDisturbing
  have ho : f ∈ (parse_moderation_labels ls).other_flags
      ↔ ¬(matchesViolence f = true ∨ matchesNsfw f = true ∨ matchesDisturbing f = true) := by
    have h0 : f ∈ (parse_moderation_labels ls).other_flags
        ↔ (!(((parse_moderation_labels ls).violence_flags
              ++ (parse_moderation_labels ls).nsfw_flags
              ++ (parse_moderation_labels ls).disturbing_flags).contains f)) = true :=
      hmem _
    rw [h0]
    simp only [Bool.not_eq_true', Bool.eq_false_iff, ne_eq]
    constructor
    · intro h hc
      apply h
      rcases hc with hc | hc | hc
      · simp [List.mem_append, hv.mpr hc]
      · simp [List.mem_append, hn.mpr hc]
      · simp [List.mem_append, hd.mpr hc]
    · intro h hc
      apply h
      have hm3 : f ∈ (parse_moderation_labels ls).violence_flags
          ∨ f ∈ (parse_moderation_labels ls).nsfw_flags
          ∨ f ∈ (parse_moderation_labels ls).disturbing_flags := by
        simpa [List.mem_append, or_assoc] using hc
      rcases hm3 with h1 | h1 | h1
      · exact Or.inl (hv.mp h1)
      · exact Or.inr (Or.inl (hn.mp h1))
      · exact Or.inr (Or.inr (hd.mp h1))
  refine ⟨hv, hn, hd, ho, ?_⟩
  by_cases h1 : matchesViolence f = true
  · exact Or.inl (hv.mpr h1)
  by_cases h2 : matchesNsfw f = true
  · exact Or.inr (Or.inl (hn.mpr h2))
  by_cases h3 : matchesDisturbing f = true
  · exact Or.inr (Or.inr (Or.inl (hd.mpr h3)))
  · refine Or.inr (Or.inr (Or.inr (ho.mpr ?_)))
    intro hc
    rcases hc with hc | hc | hc
    · exact h1 hc
    · exact h2 hc
    · exact h3 hc

/-- Witness for C4's amended statement at a concrete flag. -/
theorem bucket_membership_witness :
    "Weapons" ∈ (parse_moderation_labels [⟨"Weapons", 91, 0, ""⟩]).violence_flags
    ∨ "Weapons" ∈ (parse_moderation_labels [⟨"Weapons", 91, 0, ""⟩]).nsfw_flags
    ∨ "Weapons" ∈ (parse_moderation_labels [⟨"Weapons", 91, 0, ""⟩]).disturbing_flags
    ∨ "Weapons" ∈ (parse_moderation_labels [⟨"Weapons", 91, 0, ""⟩]).other_flags :=
  (bucket_membership [⟨"Weapons", 91, 0, ""⟩] "Weapons" (by decide)).2.2.2.2

/-- C9: `confidence` is the maximum confidence over all labels, flagged or
not (0 for an empty list), and the flag decision is a function of the
name/parent projection alone — confidences never influence `is_flagged`
or `flags`. -/
theorem confidence_max_and_independence :
    ((parse_moderation_labels []).confidence = 0)
    ∧ (∀ ls : List ModerationLabel, (∀ l ∈ ls, 0 ≤ l.confidence) → ls ≠ [] →
        ((parse_moderation_labels ls).confidence ∈ ls.map (fun l => l.confidence)
          ∧ ∀ l ∈ ls, l.confidence ≤ (parse_moderation_labels ls).confidence))
    ∧ (∀ ls₁ ls₂ : List ModerationLabel,
        ls₁.map (fun l => (l.name, l.parentName))
            = ls₂.map (fun l => (l.name, l.parentName)) →
        (parse_moderation_labels ls₁).is_flagged = (parse_moderation_labels ls₂).is_flagged
          ∧ (parse_moderation_labels ls₁).flags = (parse_moderation_labels ls₂).flags) := by
  refine ⟨rfl, ?_, ?_⟩
  · intro ls hnn hne
    have hub : ∀ l ∈ ls, l.confidence ≤ (parse_moderation_labels ls).confidence := by
      intro l hl
      rw [conf_eq]
      exact mem_le_foldl_maxStep _ 0 l.confidence (List.mem_map_of_mem _ hl)
    refine ⟨?_, hub⟩
    have hmem := foldl_maxStep_mem (ls.map (fun l => l.confidence)) 0
    rw [← conf_eq] at hmem
    rcases List.mem_cons.mp hmem with h0 | h
    · rcases List.exists_mem_of_ne_nil ls hne with ⟨l, hl⟩
      have h1 : l.confidence ≤ 0 := by
        rw [← h0]
        exact hub l hl
      have h3 : l.confidence = 0 := le_antisymm h1 (hnn l hl)
      rw [h0, ← h3]
      exact List.mem_map_of_mem _ hl
    · exact h
  · intro ls₁ ls₂ hmap
    have hf : (parse_moderation_labels ls₁).flags = (parse_moderation_labels ls₂).flags := by
      rw [flags_eq, flags_eq, filter_map_names, filter_map_names, hmap]
    constructor
    · have h1 : (parse_moderation_labels ls₁).is_flagged
          = decide ((parse_moderation_labels ls₁).flags.length > 0) := rfl
      have h2 : (parse_moderation_labels ls₂).is_flagged
          = decide ((parse_moderation_labels ls₂).flags.length > 0) := rfl
      rw [h1, h2, hf]
    · exact hf

/-- Witness for C9: the maximum is attained, and a confidence change
leaves the flags unchanged. -/
theorem confidence_max_and_independence_witness :
    ((parse_moderation_labels [⟨"Weapons", 91, 0, ""⟩]).confidence
        ∈ [ModerationLabel.mk "Weapons" 91 0 ""].map (fun l => l.confidence))
    ∧ ((parse_moderation_labels [⟨"Weapons", 91, 0, ""⟩]).flags
        = (parse_moderation_labels [⟨"Weapons", 17, 9, ""⟩]).flags) :=
  ⟨(confidence_max_and_independence.2.1 [⟨"Weapons", 91, 0, ""⟩]
      (by decide) (by decide)).1,
   (confidence_max_and_independence.2.2 [⟨"Weapons", 91, 0, ""⟩]
      [⟨"Weapons", 17, 9, ""⟩] (by decide)).2⟩

/-- C10: `total_labels` counts the whole input list, while the stored
`label_details` snapshot is exactly the first 10 labels in input order —
details beyond the tenth are dropped. -/
theorem snapshot_truncation (ls : List ModerationLabel) :
    (parse_moderation_labels ls).total_labels = ls.length
    ∧ (parse_moderation_labels ls).label_details = ls.take 10
    ∧ (parse_moderation_labels ls).label_details.length = min ls.length 10 := by
  have h2 : (parse_moderation_labels ls).label_details = ls.take 10 := by
    rw [show (parse_moderation_labels ls).label_details
          = ((parseLoop ⟨[], 0, []⟩ ls).label_details).take 10 from rfl,
        parseLoop_details]
    simp
  refine ⟨rfl, h2, ?_⟩
  rw [h2]
  simp [List.length_take, Nat.min_comm]

/-! ## Store lemmas -/

theorem findVideo_updateFirst_self (f : VideoDoc → VideoDoc) (vid : String)
    (l : List VideoDoc) (hf : ∀ w, (f w).id = w.id) :
    findVideo (updateFirst f vid l) vid = (findVideo l vid).map f := by
  induction l with
  | nil => rfl
  | cons w ws ih =>
    by_cases h : w.id = vid
    · rw [show updateFirst f vid (w :: ws) = f w :: ws by simp [updateFirst, h]]
      unfold findVideo
      rw [List.find?_cons_of_pos _ (by simp [hf w, h]),
        List.find?_cons_of_pos _ (by simp [h])]
      rfl
    · rw [show updateFirst f vid (w :: ws) = w :: updateFirst f vid ws by
        simp [updateFirst, h]]
      unfold findVideo
      rw [List.find?_cons_of_neg _ (by simp [h]), List.find?_cons_of_neg _ (by simp [h])]
      exact ih

theorem findVideo_updateFirst_other (f : VideoDoc → VideoDoc) (pid vid : String)
    (l : List VideoDoc) (hf : ∀ w, (f w).id = w.id) (hne : pid ≠ vid) :
    findVideo (updateFirst f pid l) vid = findVideo l vid := by
  induction l with
  | nil => rfl
  | cons w ws ih =>
    by_cases h : w.id = pid
    · rw [show updateFirst f pid (w :: ws) = f w :: ws by simp [updateFirst, h]]
      unfold findVideo
      rw [List.find?_cons_of_neg _ (by simp [hf w, h]; exact hne),
        List.find?_cons_of_neg _ (by simp [h]; exact hne)]
    · rw [show updateFirst f pid (w :: ws) = w :: updateFirst f pid ws by
        simp [updateFirst, h]]
      unfold findVideo
      by_cases h2 : w.id = vid
      · rw [List.find?_cons_of_pos _ (by simp [h2]), List.find?_cons_of_pos _ (by simp [h2])]
      · rw [List.find?_cons_of_neg _ (by simp [h2]), List.find?_cons_of_neg _ (by simp [h2])]
        exact ih

theorem findVideo_nodup (l : List VideoDoc) (v : VideoDoc)
    (hnd : (l.map (fun w => w.id)).Nodup) (hv : v ∈ l) :
    findVideo l v.id = some v := by
  induction l with
  | nil => cases hv
  | cons w ws ih =>
    simp only [List.map_cons, List.nodup_cons] at hnd
    rcases List.mem_cons.mp hv with h | h
    · subst h
      unfold findVideo
      rw [List.find?_cons_of_pos _ (by simp)]
    · by_cases hw : w.id = v.id
      · exfalso
        have hm : v.id ∈ ws.map (fun w => w.id) := List.mem_map_of_mem _ h
        rw [← hw] at hm
        exact hnd.1 hm
      · unfold findVideo
        rw [List.find?_cons_of_neg _ (by simp [hw])]
        exact ih hnd.2 h

theorem updateFirst_idem (f : VideoDoc → VideoDoc) (vid : String) (l : List VideoDoc)
    (hf : ∀ w, (f w).id = w.id) (hff : ∀ w, f (f w) = f w) :
    updateFirst f vid (updateFirst f vid l) = updateFirst f vid l := by
  induction l with
  | nil => rfl
  | cons w ws ih =>
    by_cases h : w.id = vid
    · simp [updateFirst, h, hf w, hff w]
    · simp [updateFirst, h, ih]

theorem updateFirst_map_congr (f g : VideoDoc → VideoDoc) (vid : String)
    (l : List VideoDoc) (h : ∀ w, g (f w) = g w) :
    (updateFirst f vid l).map g = l.map g := by
  induction l with
  | nil => rfl
  | cons w ws ih =>
    by_cases hw : w.id = vid
    · simp [updateFirst, hw, h w]
    · simp [updateFirst, hw, ih]

theorem pollStep_find_other (poll : String → PollOutcome) (now : ℕ)
    (acc : DB × List Event) (p : VideoDoc) (vid : String) (hne : p.id ≠ vid) :
    findVideo ((pollStep poll now acc p).1).videos vid = findVideo acc.1.videos vid := by
  unfold pollStep
  split
  · rfl
  · split
    · rfl
    · split
      · rfl
      · exact findVideo_updateFirst_other _ _ _ _ (fun w => rfl) hne
      · exact findVideo_updateFirst_other _ _ _ _ (fun w => rfl) hne
      · rfl
      · rfl

theorem pollStep_raise_id (poll : String → PollOutcome) (now : ℕ)
    (acc : DB × List Event) (p : VideoDoc) (j msg : String)
    (hj : p.rekognitionJobId = some j) (hp : poll j = .raiseErr msg) :
    pollStep poll now acc p = acc := by
  unfold pollStep
  rw [hj]
  by_cases hjj : j = ""
  · simp [hjj]
  · simp [hjj, hp]

theorem foldl_pollStep_preserve (poll : String → PollOutcome) (now : ℕ)
    (l : List VideoDoc) (vid : String) :
    ∀ acc : DB × List Event,
    (∀ p ∈ l, p.id ≠ vid ∨ ∀ a, pollStep poll now a p = a) →
    findVideo ((l.foldl (pollStep poll now) acc).1).videos vid
      = findVideo acc.1.videos vid := by
  induction l with
  | nil =>
    intro acc _
    rfl
  | cons p ps ih =>
    intro acc h
    rw [List.foldl_cons, ih _ (fun q hq => h q (List.mem_cons_of_mem _ hq))]
    rcases h p (List.mem_cons_self _ _) with hne | hid
    · exact pollStep_find_other poll now acc p vid hne
    · rw [hid acc]

/-! ## Claims about the result processor and notification dispatcher -/

/-- Counterexample for C2 as stated: on the failed outcome the code emits
to the owner's room only, so a connected account (here `v1`) receives no
event even though it is in the claimed recipient set. -/
theorem notify_recipients_cex :
    ¬ (∀ r ∈ exVideo.userId :: connectedOf exDB exVideo.userId,
        ∃ e ∈ (process_failure exDB exVideo "Rekognition job failed" 0).2, e.room = r) := by
  decide

/-- C2 (amended): on the completed/flagged success outcome the dispatcher
emits exactly one event per recipient in `{ownerId} ∪ connectedAccountIds`,
in that order; on the failed outcome it emits exactly one event, to the
owner's channel only, carrying the error and a human-readable message. -/
theorem notify_recipients (db : DB) (v : VideoDoc) (labels : List ModerationLabel)
    (now : ℕ) (err : String) :
    ((process_success db v labels now).2.map (fun e => e.room)
        = v.userId :: connectedOf db v.userId)
    ∧ (∀ e ∈ (process_success db v labels now).2,
        e.name = "processing_completed" ∧ e.videoId = v.id ∧ e.userId = v.userId)
    ∧ ((process_failure db v err now).2.map (fun e => e.room) = [v.userId])
    ∧ (∀ e ∈ (process_failure db v err now).2,
        e.name = "processing_failed" ∧ e.videoId = v.id ∧ e.userId = v.userId
          ∧ e.error = some err
          ∧ e.message = "Video analysis failed. Please try uploading again.") := by
  have hev : (process_success db v labels now).2
      = (v.userId :: connectedOf db v.userId).map
          (successEvent v (parse_moderation_labels labels)) := rfl
  have hroom : ∀ r, (successEvent v (parse_moderation_labels labels) r).room = r := by
    intro r
    unfold successEvent
    split <;> rfl
  refine ⟨?_, ?_, rfl, ?_⟩
  · rw [hev, List.map_map]
    conv_rhs => rw [show v.userId :: connectedOf db v.userId
        = (v.userId :: connectedOf db v.userId).map id from (List.map_id _).symm]
    exact List.map_congr_left (fun r _ => hroom r)
  · intro e he
    rw [hev] at he
    rcases List.mem_map.mp he with ⟨r, _, rfl⟩
    unfold successEvent
    split <;> exact ⟨rfl, rfl, rfl⟩
  · intro e he
    rcases List.mem_singleton.mp he with rfl
    exact ⟨rfl, rfl, rfl, rfl, rfl⟩

/-- Witness for C2's amended statement: one completed event per recipient
(owner plus two connected accounts), one failed event to the owner only. -/
theorem notify_recipients_witness :
    ((process_success exDB exVideo [] 0).2.map (fun e => e.room) = ["u", "v1", "v2"])
    ∧ ((process_failure exDB exVideo "boom" 0).2.map (fun e => e.room) = ["u"]) := by
  have h := notify_recipients exDB exVideo [] 0 "boom"
  refine ⟨?_, h.2.2.1⟩
  rw [h.1]
  decide

/-- Counterexample for C3 as stated: a second success-processing call at a
later clock reading rewrites `analysisResult` with a different
`completed_at` timestamp, so the stored analysis record is not unchanged. -/
theorem success_idempotent_cex :
    (findVideo ((process_success (process_success exDB exVideo [] 0).1 exVideo [] 1).1).videos
        "vid1").map (fun w => w.analysis)
      ≠ (findVideo ((process_success exDB exVideo [] 0).1).videos "vid1").map
          (fun w => w.analysis) := by
  decide

/-- C3 (amended): a second success-processing call with the same job
result is an overwrite with identical data except the `completed_at`
timestamp, which is refreshed: status and `sensitivityStatus` are
unchanged, the analysis record agrees up to its timestamp, and with an
identical clock reading the second call leaves the store exactly as the
first call wrote it. -/
theorem success_idempotent (db : DB) (v : VideoDoc) (labels : List ModerationLabel)
    (now₁ now₂ : ℕ) (w : VideoDoc) (hw : findVideo db.videos v.id = some w) :
    (findVideo ((process_success db v labels now₁).1).videos v.id
        = some (applySuccessSet (parse_moderation_labels labels) now₁ w))
    ∧ (findVideo ((process_success (process_success db v labels now₁).1 v labels now₂).1).videos
          v.id
        = some (applySuccessSet (parse_moderation_labels labels) now₂ w))
    ∧ ((applySuccessSet (parse_moderation_labels labels) now₂ w).status
        = (applySuccessSet (parse_moderation_labels labels) now₁ w).status)
    ∧ ((applySuccessSet (parse_moderation_labels labels) now₂ w).sensitivityStatus
        = (applySuccessSet (parse_moderation_labels labels) now₁ w).sensitivityStatus)
    ∧ ((applySuccessSet (parse_moderation_labels labels) now₂ w).analysis.map stripTime
        = (applySuccessSet (parse_moderation_labels labels) now₁ w).analysis.map stripTime)
    ∧ (now₂ = now₁ →
        (process_success (process_success db v labels now₁).1 v labels now₂).1
          = (process_success db v labels now₁).1) := by
  have h1 : findVideo ((process_success db v labels now₁).1).videos v.id
      = some (applySuccessSet (parse_moderation_labels labels) now₁ w) := by
    rw [show ((process_success db v labels now₁).1).videos
        = updateFirst (applySuccessSet (parse_moderation_labels labels) now₁) v.id db.videos
        from rfl]
    rw [findVideo_updateFirst_self (applySuccessSet (parse_moderation_labels labels) now₁)
        v.id db.videos (fun q => rfl), hw]
    rfl
  have h2 : findVideo ((process_success (process_success db v labels now₁).1 v labels
        now₂).1).videos v.id
      = some (applySuccessSet (parse_moderation_labels labels) now₂ w) := by
    rw [show ((process_success (process_success db v labels now₁).1 v labels now₂).1).videos
        = updateFirst (applySuccessSet (parse_moderation_labels labels) now₂) v.id
            ((process_success db v labels now₁).1).videos from rfl]
    rw [findVideo_updateFirst_self (applySuccessSet (parse_moderation_labels labels) now₂)
        v.id ((process_success db v labels now₁).1).videos (fun q => rfl), h1]
    rfl
  refine ⟨h1, h2, rfl, rfl, rfl, ?_⟩
  intro h
  subst h
  have hvid : updateFirst (applySuccessSet (parse_moderation_labels labels) now₂) v.id
      (updateFirst (applySuccessSet (parse_moderation_labels labels) now₂) v.id db.videos)
      = updateFirst (applySuccessSet (parse_moderation_labels labels) now₂) v.id db.videos :=
    updateFirst_idem _ _ _ (fun q => rfl) (fun q => rfl)
  exact congrArg (fun vs => ({ videos := vs, users := db.users } : DB)) hvid

/-- Witness for C3's amended statement at an identical clock reading. -/
theorem success_idempotent_witness :
    (findVideo ((process_success exDB exVideo [] 7).1).videos exVideo.id
        = some (applySuccessSet (parse_moderation_labels []) 7 exVideo))
    ∧ ((process_success (process_success exDB exVideo [] 7).1 exVideo [] 7).1
        = (process_success exDB exVideo [] 7).1) := by
  have h := success_idempotent exDB exVideo [] 7 7 exVideo (by decide)
  exact ⟨h.1, h.2.2.2.2.2 rfl⟩

/-- C5: if an exception is raised while classifying labels or applying
the success-path update, the processor runs the failure path instead,
leaving the video with status `failed`, `processingProgress` 0 and an
analysis record holding the error and a timestamp; in every outcome the
video ends in a terminal state. -/
theorem success_path_terminal (db : DB) (v : VideoDoc) (labels : List ModerationLabel)
    (now : ℕ) (msg : String) (w : VideoDoc) (hw : findVideo db.videos v.id = some w) :
    (findVideo ((process_success_exc db v labels now (.raiseDuringClassify msg)).1).videos
        v.id = some (applyFailureSet msg now w))
    ∧ (findVideo ((process_success_exc db v labels now (.raiseDuringUpdate msg)).1).videos
        v.id = some (applyFailureSet msg now w))
    ∧ ((applyFailureSet msg now w).status = "failed"
        ∧ (applyFailureSet msg now w).processingProgress = 0
        ∧ (applyFailureSet msg now w).analysis = some (.failedRec msg now))
    ∧ (∀ oc : SuccessOutcome,
        ∃ w', findVideo ((process_success_exc db v labels now oc).1).videos v.id = some w'
          ∧ (w'.status = "completed" ∨ w'.status = "failed" ∨ w'.status = "flagged")) := by
  have hfailm : ∀ m : String,
      findVideo ((process_failure db v m now).1).videos v.id
        = some (applyFailureSet m now w) := by
    intro m
    rw [show ((process_failure db v m now).1).videos
        = updateFirst (applyFailureSet m now) v.id db.videos from rfl]
    rw [findVideo_updateFirst_self (applyFailureSet m now) v.id db.videos (fun q => rfl), hw]
    rfl
  have hok : findVideo ((process_success db v labels now).1).videos v.id
      = some (applySuccessSet (parse_moderation_labels labels) now w) := by
    rw [show ((process_success db v labels now).1).videos
        = updateFirst (applySuccessSet (parse_moderation_labels labels) now) v.id db.videos
        from rfl]
    rw [findVideo_updateFirst_self (applySuccessSet (parse_moderation_labels labels) now)
        v.id db.videos (fun q => rfl), hw]
    rfl
  refine ⟨hfailm msg, hfailm msg, ⟨rfl, rfl, rfl⟩, ?_⟩
  intro oc
  cases oc with
  | ok =>
    refine ⟨applySuccessSet (parse_moderation_labels labels) now w, hok, ?_⟩
    cases hA : (parse_moderation_labels labels).is_flagged with
    | true =>
      right
      right
      simp [applySuccessSet, hA]
    | false =>
      left
      simp [applySuccessSet, hA]
  | raiseDuringClassify m =>
    exact ⟨applyFailureSet m now w, hfailm m, Or.inr (Or.inl rfl)⟩
  | raiseDuringUpdate m =>
    exact ⟨applyFailureSet m now w, hfailm m, Or.inr (Or.inl rfl)⟩

/-- Witness for C5 at a concrete raise during classification. -/
theorem success_path_terminal_witness :
    findVideo ((process_success_exc exDB exVideo [] 3
        (.raiseDuringClassify "boom")).1).videos exVideo.id
      = some (applyFailureSet "boom" 3 exVideo) :=
  (success_path_terminal exDB exVideo [] 3 "boom" exVideo (by decide)).1

/-- C6: a raising poll call is swallowed — replacing every raising
outcome by `IN_PROGRESS` yields the identical cycle result; the raising
video's record is left unchanged; and in the concrete three-job scenario
with the second poll raising, the first video completes, the second stays
`processing_pending` untouched, and the third is flagged, all within the
one cycle. -/
theorem poller_isolation :
    (∀ (db : DB) (poll poll' : String → PollOutcome) (now : ℕ),
        (∀ j, poll' j = swallowRaise (poll j)) →
        poll_pending_videos db poll now = poll_pending_videos db poll' now)
    ∧ (∀ (db : DB) (poll : String → PollOutcome) (now : ℕ) (v : VideoDoc) (j msg : String),
        (db.videos.map (fun w => w.id)).Nodup → v ∈ db.videos →
        v.rekognitionJobId = some j → poll j = .raiseErr msg →
        findVideo (poll_pending_videos db poll now).1.videos v.id = some v)
    ∧ (((findVideo (poll_pending_videos exPollDB pollScript 0).1.videos "id1").map
          (fun w => w.status) = some "completed")
        ∧ findVideo (poll_pending_videos exPollDB pollScript 0).1.videos "id2" = some exV2
        ∧ ((findVideo (poll_pending_videos exPollDB pollScript 0).1.videos "id3").map
          (fun w => w.status) = some "flagged")) := by
  refine ⟨?_, ?_, by decide, by decide, by decide⟩
  · intro db poll poll' now hpoll
    have hstep : ∀ (acc : DB × List Event) (p : VideoDoc),
        pollStep poll now acc p = pollStep poll' now acc p := by
      intro acc p
      cases hj : p.rekognitionJobId with
      | none => simp [pollStep, hj]
      | some j =>
        by_cases hjj : j = ""
        · simp [pollStep, hj, hjj]
        · cases hpo : poll j with
          | inProgress => simp [pollStep, hj, hjj, hpo, hpoll j, swallowRaise]
          | succeeded labels => simp [pollStep, hj, hjj, hpo, hpoll j, swallowRaise]
          | failed => simp [pollStep, hj, hjj, hpo, hpoll j, swallowRaise]
          | raiseErr m => simp [pollStep, hj, hjj, hpo, hpoll j, swallowRaise]
          | unknown s => simp [pollStep, hj, hjj, hpo, hpoll j, swallowRaise]
    have hfold : ∀ (l : List VideoDoc) (acc : DB × List Event),
        l.foldl (pollStep poll now) acc = l.foldl (pollStep poll' now) acc := by
      intro l
      induction l with
      | nil => intro acc; rfl
      | cons p ps ih =>
        intro acc
        rw [List.foldl_cons, List.foldl_cons, hstep acc p, ih]
    exact hfold _ _
  · intro db poll now v j msg hnd hv hj hp
    have hcond : ∀ p ∈ db.videos.filter isPendingDoc,
        p.id ≠ v.id ∨ ∀ a, pollStep poll now a p = a := by
      intro p hpfil
      by_cases hid : p.id = v.id
      · right
        have hpmem : p ∈ db.videos := List.mem_of_mem_filter hpfil
        have hpv : p = v := List.inj_on_of_nodup_map hnd hpmem hv hid
        intro a
        exact pollStep_raise_id poll now a p j msg (by rw [hpv]; exact hj) hp
      · exact Or.inl hid
    show findVideo ((db.videos.filter isPendingDoc).foldl (pollStep poll now)
        (db, [])).1.videos v.id = some v
    rw [foldl_pollStep_preserve poll now _ v.id (db, []) hcond]
    exact findVideo_nodup db.videos v hnd hv

/-- Witness for C6's general part at the three-job scenario: the video
whose poll call raised is untouched. -/
theorem poller_isolation_witness :
    findVideo (poll_pending_videos exPollDB pollScript 0).1.videos exV2.id = some exV2 :=
  poller_isolation.2.1 exPollDB pollScript 0 exV2 "j2" "transient network error"
    (by decide) (by decide) (by decide) (by decide)

/-- C7: the upload operation always inserts a video record; on store or
submit failure the record carries status `failed` and the diagnostic
error; on success it carries status `processing_pending`, the job
reference, and `processingProgress` 0. -/
theorem upload_creates_record (db : DB) (ownerId title fn s3k nid : String)
    (fs now : ℕ) :
    (∀ oc : UploadOutcome,
        (upload_video db ownerId title fn s3k nid fs now true oc).1.videos
          = db.videos ++ [(upload_video db ownerId title fn s3k nid fs now true oc).2])
    ∧ (∀ jobId s3Uri : String,
        (upload_video db ownerId title fn s3k nid fs now true (.ok jobId s3Uri)).2.status
            = "processing_pending"
        ∧ (upload_video db ownerId title fn s3k nid fs now true
            (.ok jobId s3Uri)).2.rekognitionJobId = some jobId
        ∧ (upload_video db ownerId title fn s3k nid fs now true
            (.ok jobId s3Uri)).2.processingProgress = 0
        ∧ (upload_video db ownerId title fn s3k nid fs now true
            (.ok jobId s3Uri)).2.analysis = some (.inProgressMeta jobId s3k s3Uri now))
    ∧ (∀ msg : String,
        (upload_video db ownerId title fn s3k nid fs now true (.storeError msg)).2.status
            = "failed"
        ∧ (upload_video db ownerId title fn s3k nid fs now true
            (.storeError msg)).2.analysis = some (.uploadError msg)
        ∧ (upload_video db ownerId title fn s3k nid fs now true
            (.storeError msg)).2.rekognitionJobId = none)
    ∧ (∀ msg : String,
        (upload_video db ownerId title fn s3k nid fs now true (.submitError msg)).2.status
            = "failed"
        ∧ (upload_video db ownerId title fn s3k nid fs now true
            (.submitError msg)).2.analysis = some (.uploadError msg)
        ∧ (upload_video db ownerId title fn s3k nid fs now true
            (.submitError msg)).2.rekognitionJobId = none) := by
  refine ⟨?_, ?_, ?_, ?_⟩
  · intro oc
    rfl
  · intro jobId s3Uri
    exact ⟨rfl, rfl, rfl, rfl⟩
  · intro msg
    exact ⟨rfl, rfl, rfl⟩
  · intro msg
    exact ⟨rfl, rfl, rfl⟩

/-- C8: terminal records are immutable in the core — the poller's
discovery query selects only `processing_pending` records with a non-null
job reference, a poll cycle leaves every record that is terminal (hence
outside the query) entirely unchanged, the record-update endpoint
modifies nothing besides `title` and `filename`, and upload only appends
a new record. -/
theorem terminal_immutable :
    (∀ (db : DB) (p : VideoDoc), p ∈ db.videos.filter isPendingDoc →
        p.status = "processing_pending" ∧ p.rekognitionJobId ≠ none)
    ∧ (∀ (db : DB) (poll : String → PollOutcome) (now : ℕ) (v : VideoDoc),
        (db.videos.map (fun w => w.id)).Nodup → v ∈ db.videos →
        (v.status = "completed" ∨ v.status = "failed" ∨ v.status = "flagged") →
        findVideo (poll_pending_videos db poll now).1.videos v.id = some v)
    ∧ (∀ (db : DB) (u : UserDoc) (vid : String) (t f : Option String) (db' : DB),
        update_video db u vid t f = .ok db' →
        db'.videos.map stripTitleFilename = db.videos.map stripTitleFilename)
    ∧ (∀ (db : DB) (ownerId title fn s3k nid : String) (fs now : ℕ) (cfg : Bool)
        (oc : UploadOutcome),
        (upload_video db ownerId title fn s3k nid fs now cfg oc).1.videos
          = db.videos ++ [(upload_video db ownerId title fn s3k nid fs now cfg oc).2]) := by
  refine ⟨?_, ?_, ?_, ?_⟩
  · intro db p hp
    have h := List.mem_filter.mp hp
    have h2 := h.2
    simp only [isPendingDoc, Bool.and_eq_true, decide_eq_true_eq] at h2
    exact ⟨h2.1, Option.isSome_iff_ne_none.mp h2.2⟩
  · intro db poll now v hnd hv hterm
    have hcond : ∀ p ∈ db.videos.filter isPendingDoc,
        p.id ≠ v.id ∨ ∀ a, pollStep poll now a p = a := by
      intro p hpfil
      left
      intro hid
      have hpmem : p ∈ db.videos := List.mem_of_mem_filter hpfil
      have hpv : p = v := List.inj_on_of_nodup_map hnd hpmem hv hid
      have hstat : p.status = "processing_pending" := by
        have h := List.mem_filter.mp hpfil
        have h2 := h.2
        simp only [isPendingDoc, Bool.and_eq_true, decide_eq_true_eq] at h2
        exact h2.1
      rw [hpv] at hstat
      rcases hterm with h | h | h <;> rw [h] at hstat <;> exact absurd hstat (by decide)
    show findVideo ((db.videos.filter isPendingDoc).foldl (pollStep poll now)
        (db, [])).1.videos v.id = some v
    rw [foldl_pollStep_preserve poll now _ v.id (db, []) hcond]
    exact findVideo_nodup db.videos v hnd hv
  · intro db u vid t f db' h
    unfold update_video at h
    split at h
    · exact Except.noConfusion h
    · split at h
      · exact Except.noConfusion h
      · split at h
        · split at h
          · exact Except.noConfusion h
          · cases h
            exact updateFirst_map_congr _ stripTitleFilename vid db.videos (fun w => rfl)
        · split at h
          · exact Except.noConfusion h
          · cases h
            exact updateFirst_map_congr _ stripTitleFilename vid db.videos (fun w => rfl)
  · intro db ownerId title fn s3k nid fs now cfg oc
    rfl

/-- Witness for C8: the pending-query shape, the terminal record's
immutability through a poll cycle, and a title update leaving everything
but title/filename intact, at concrete inputs. -/
theorem terminal_immutable_witness :
    (exV1.status = "processing_pending" ∧ exV1.rekognitionJobId ≠ none)
    ∧ findVideo (poll_pending_videos exDB2 pollScript 0).1.videos exTerminalVideo.id
        = some exTerminalVideo
    ∧ ({ videos := [{ exVideo with title := "New title" }], users := [exUser] } : DB).videos.map
          stripTitleFilename
        = exDB.videos.map stripTitleFilename := by
  refine ⟨terminal_immutable.1 exDB2 exV1 (by decide), ?_, ?_⟩
  · exact terminal_immutable.2.1 exDB2 pollScript 0 exTerminalVideo (by decide) (by decide)
      (Or.inl rfl)
  · exact terminal_immutable.2.2.1 exDB exUser "vid1" (some "New title") none _ rfl

end VideoApp
